import Mathlib

/-!
Verification development for a bag-of-words Naive Bayes sentiment classifier
(`main.py`).

Embedding conventions.

The Python code works with natural-log probabilities (`math.log` of exact
rational quantities) stored as floats, and combines them additively.  Here
every such log-space real `ln q` is represented by its exponential, the exact
rational `q : ℚ`:

* addition of log-scores in the code becomes multiplication of the rational
  representatives;
* the comparison `positive > negative` of log-scores holds iff the rational
  representatives compare the same way (`Real.log` is strictly monotone on
  positives, and every quantity the trained model logs is positive);
* the code's check `score == 0` on a log-score means `ln q = 0`, i.e. the
  rational representative `q = 1`;
* a tie `positive == negative` of log-scores means the representatives are
  equal.

Text normalisation (NLTK tokenisation, lemmatisation, stopword removal) is an
external collaborator: documents enter the model as lists of already
normalised string tokens, and `classify` takes the token list produced for its
input text.  Corpus directory traversal is likewise external: `train` takes
the two lists of tokenised documents that `get_samples` would yield.  Python
dictionaries keyed by words are embedded as functions `String → Option ℚ`
(`none` = key absent); `dict.get(k, d)` is `dict_get`, and the mutating
`defaultdict` index access is `dict_getitem`.

Python's exceptions (`AssertionError` from the sanity check, `ZeroDivisionError`
and `math.log` domain errors from empty corpora or zero denominators) are
embedded as `Except` errors.
-/

deriving instance DecidableEq for Except

namespace SentimentNB

attribute [local semireducible] Rat.add Rat.mul Rat.inv Rat.sub

abbrev Token := String

/-- A tokenised document: the sequence of normalised tokens of one review. -/
abbrev Doc := List Token

/-- A word-keyed dictionary of log-likelihood representatives
(`none` = word absent from the dictionary). -/
abbrev LikelihoodDict := Token → Option ℚ

/-- Error raised when a training sample set is empty (the Python code fails
with `ZeroDivisionError` or a `math.log` domain error in the prior
computation). -/
inductive TrainError
  | corpusError
deriving DecidableEq

/-- Error raised by the sanity check in `classify` (an `AssertionError` in the
Python code). -/
inductive ClassifyError
  | invariantViolation
deriving DecidableEq

/-- Error raised when a metric denominator is zero (a `ZeroDivisionError` in
the Python code). -/
inductive MetricError
  | undefinedMetric
deriving DecidableEq

/-- The trained model parameters, mirroring the `params` dictionary of
`NaiveBayesClassifier`.  Log-space fields (`pos_prior`, `neg_prior`, and the
likelihood values) hold the rational representative `q` of the logged value
`ln q`. -/
structure Params where
  pos_prior : ℚ
  neg_prior : ℚ
  n_pos_words : ℕ
  n_neg_words : ℕ
  n_vocab : ℕ
  pos_likelihood : LikelihoodDict
  neg_likelihood : LikelihoodDict

/-- Embedding of `NaiveBayesClassifier._train_model` (lines 68-133): counts
the documents of each class, forms the bag-of-words counts, the priors, the
per-class token totals, the combined vocabulary, and the Laplace-smoothed
likelihood of every vocabulary word.  Fails when either class has no
documents (the prior computation would divide by zero / take `log 0`). -/
def train (posDocs negDocs : List Doc) : Except TrainError Params :=
  let n_pos_train := posDocs.length
  let n_neg_train := negDocs.length
  if n_pos_train = 0 ∨ n_neg_train = 0 then
    Except.error TrainError.corpusError
  else
    let pos_tokens := posDocs.flatten
    let neg_tokens := negDocs.flatten
    let n_samples := n_pos_train + n_neg_train
    let n_pos_words := pos_tokens.length
    let n_neg_words := neg_tokens.length
    let vocabulary := (pos_tokens ++ neg_tokens).dedup
    let n_vocab := vocabulary.length
    let pos_denominator : ℚ := (n_pos_words : ℚ) + (n_vocab : ℚ)
    let neg_denominator : ℚ := (n_neg_words : ℚ) + (n_vocab : ℚ)
    Except.ok
      { pos_prior := (n_pos_train : ℚ) / (n_samples : ℚ)
        neg_prior := (n_neg_train : ℚ) / (n_samples : ℚ)
        n_pos_words := n_pos_words
        n_neg_words := n_neg_words
        n_vocab := n_vocab
        pos_likelihood := fun w =>
          if w ∈ vocabulary then
            some (((pos_tokens.count w : ℚ) + 1) / pos_denominator)
          else none
        neg_likelihood := fun w =>
          if w ∈ vocabulary then
            some (((neg_tokens.count w : ℚ) + 1) / neg_denominator)
          else none }

/-- Default likelihood of unknown words for the positive class
(`def_pos_ll = log(1 / (n_pos_words + n_vocab))` in `__init__`, lines 53-57);
this is its rational representative. -/
def def_pos_ll (p : Params) : ℚ := 1 / ((p.n_pos_words : ℚ) + (p.n_vocab : ℚ))

/-- Default likelihood of unknown words for the negative class. -/
def def_neg_ll (p : Params) : ℚ := 1 / ((p.n_neg_words : ℚ) + (p.n_vocab : ℚ))

/-- Python `dict.get(w, dflt)`: look up without mutating. -/
def dict_get (d : LikelihoodDict) (w : Token) (dflt : ℚ) : ℚ :=
  (d w).getD dflt

/-- The scoring loop of `classify` (lines 168-177): multiply in each token's
likelihood representative (addition of log-likelihoods) and run the sanity
check after every token.  `score == 0` on a log-score corresponds to the
representative being `1`. -/
def score_loop (p : Params) : List Token → ℚ → ℚ → Except ClassifyError (ℚ × ℚ)
  | [], pos, neg => Except.ok (pos, neg)
  | w :: ws, pos, neg =>
    let pos' := pos * dict_get p.pos_likelihood w (def_pos_ll p)
    let neg' := neg * dict_get p.neg_likelihood w (def_neg_ll p)
    if pos' = 1 ∨ neg' = 1 ∨ pos' = neg' then
      Except.error ClassifyError.invariantViolation
    else
      score_loop p ws pos' neg'

/-- Embedding of `NaiveBayesClassifier.classify` (lines 157-179) applied to
the token list of the input text: scores start at the priors, each token
contributes its stored likelihood or the default, and the result is `1` when
the positive score exceeds the negative one, else `-1`. -/
def classify (p : Params) (words : List Token) : Except ClassifyError Int :=
  match score_loop p words p.pos_prior p.neg_prior with
  | Except.error e => Except.error e
  | Except.ok (pos, neg) => Except.ok (if neg < pos then 1 else -1)

/-- The same per-token accumulation as `score_loop` but without the sanity
check: the pure fold of priors and per-token likelihood contributions. -/
def accum_scores (p : Params) : List Token → ℚ × ℚ → ℚ × ℚ
  | [], s => s
  | w :: ws, s =>
    accum_scores p ws
      (s.1 * dict_get p.pos_likelihood w (def_pos_ll p),
       s.2 * dict_get p.neg_likelihood w (def_neg_ll p))

/-- The fully accumulated pair of scores for an input. -/
def final_scores (p : Params) (words : List Token) : ℚ × ℚ :=
  accum_scores p words (p.pos_prior, p.neg_prior)

/-- The four evaluation metrics (lines 231-241). -/
structure Metrics where
  precision : ℚ
  «recall» : ℚ
  f_measure : ℚ
  accuracy : ℚ
deriving DecidableEq

/-- Embedding of the metric computation of `evaluate` (lines 231-241) from
the accumulated confusion counts.  Python's `/` raises `ZeroDivisionError` on
a zero denominator, in the order the four statements execute. -/
def compute_metrics (tp fp tn fn : ℕ) : Except MetricError Metrics :=
  if tp + fp = 0 then Except.error MetricError.undefinedMetric
  else
    let precision : ℚ := (tp : ℚ) / ((tp : ℚ) + (fp : ℚ))
    if tp + fn = 0 then Except.error MetricError.undefinedMetric
    else
      let «recall» : ℚ := (tp : ℚ) / ((tp : ℚ) + (fn : ℚ))
      if precision + «recall» = 0 then Except.error MetricError.undefinedMetric
      else
        let f_measure : ℚ := 2 * precision * «recall» / (precision + «recall»)
        if tp + fp + tn + fn = 0 then Except.error MetricError.undefinedMetric
        else
          let accuracy : ℚ :=
            ((tp : ℚ) + (tn : ℚ)) / ((tp : ℚ) + (fp : ℚ) + (tn : ℚ) + (fn : ℚ))
          Except.ok ⟨precision, «recall», f_measure, accuracy⟩

/-- Python `dict.get(w, dflt)` with the dictionary state threaded through:
returns the value and the (unchanged) dictionary. -/
def dict_get_st (d : LikelihoodDict) (w : Token) (dflt : ℚ) :
    ℚ × LikelihoodDict :=
  match d w with
  | some v => (v, d)
  | none => (dflt, d)

/-- Python `defaultdict(float)` index access `d[w]`, for contrast: a missing
key is inserted with the default-factory value `0` and the extended
dictionary is returned. -/
def dict_getitem (d : LikelihoodDict) (w : Token) : ℚ × LikelihoodDict :=
  match d w with
  | some v => (v, d)
  | none => (0, fun x => if x = w then some 0 else d x)

/-- The scoring loop with the two likelihood dictionaries threaded as mutable
state, exactly as the Python object state would be: each lookup goes through
`dict_get_st` and the possibly-updated dictionaries flow onward. -/
def score_loop_st (dp dn : ℚ) :
    List Token → ℚ → ℚ → LikelihoodDict → LikelihoodDict →
      Except ClassifyError (ℚ × ℚ) × LikelihoodDict × LikelihoodDict
  | [], pos, neg, dP, dN => (Except.ok (pos, neg), dP, dN)
  | w :: ws, pos, neg, dP, dN =>
    let rP := dict_get_st dP w dp
    let rN := dict_get_st dN w dn
    let pos' := pos * rP.1
    let neg' := neg * rN.1
    if pos' = 1 ∨ neg' = 1 ∨ pos' = neg' then
      (Except.error ClassifyError.invariantViolation, rP.2, rN.2)
    else
      score_loop_st dp dn ws pos' neg' rP.2 rN.2

/-- Stateful embedding of `classify`: alongside the classification result it
returns the model parameters as they stand after the call, with the
(possibly updated) dictionaries written back. -/
def classify_st (p : Params) (words : List Token) :
    Except ClassifyError Int × Params :=
  let r := score_loop_st (def_pos_ll p) (def_neg_ll p) words
    p.pos_prior p.neg_prior p.pos_likelihood p.neg_likelihood
  let res : Except ClassifyError Int :=
    match r.1 with
    | Except.error e => Except.error e
    | Except.ok s => Except.ok (if s.2 < s.1 then 1 else -1)
  (res, { p with pos_likelihood := r.2.1, neg_likelihood := r.2.2 })

/-- The combined vocabulary, as the list the training loop iterates over. -/
def vocab_list (posDocs negDocs : List Doc) : List Token :=
  (posDocs.flatten ++ negDocs.flatten).dedup

/-- The positive documents of the spec's worked example, already tokenised. -/
def example_pos_docs : List Doc := [["good", "movie", "good"], ["great", "film"]]

/-- The negative documents of the spec's worked example, already tokenised. -/
def example_neg_docs : List Doc := [["bad", "movie"], ["terrible", "film"]]

instance : Inhabited Params :=
  ⟨⟨0, 0, 0, 0, 0, fun _ => none, fun _ => none⟩⟩

/-- The model trained on the spec's worked example corpus. -/
def example_model : Params :=
  (train example_pos_docs example_neg_docs).toOption.getD default

/-- A one-document positive corpus whose first token is equally frequent in
both classes: used to exhibit a mid-loop tie. -/
def tie_pos_docs : List Doc := [["movie", "good"]]

/-- The matching one-document negative corpus. -/
def tie_neg_docs : List Doc := [["movie", "bad"]]

/-- The model trained on the tie-exhibiting corpus. -/
def tie_model : Params :=
  (train tie_pos_docs tie_neg_docs).toOption.getD default

lemma train_example_ok :
    train example_pos_docs example_neg_docs = Except.ok example_model := by
  have hok : (train example_pos_docs example_neg_docs).isOk = true := by decide
  cases h : train example_pos_docs example_neg_docs with
  | error e => rw [h] at hok; simp [Except.isOk, Except.toBool] at hok
  | ok p => rw [example_model, h]; rfl

lemma train_tie_ok :
    train tie_pos_docs tie_neg_docs = Except.ok tie_model := by
  have hok : (train tie_pos_docs tie_neg_docs).isOk = true := by decide
  cases h : train tie_pos_docs tie_neg_docs with
  | error e => rw [h] at hok; simp [Except.isOk, Except.toBool] at hok
  | ok p => rw [tie_model, h]; rfl

lemma dict_get_st_eq (d : LikelihoodDict) (w : Token) (dflt : ℚ) :
    dict_get_st d w dflt = (dict_get d w dflt, d) := by
  unfold dict_get_st dict_get Option.getD
  cases d w <;> rfl

lemma score_loop_ok_eq (p : Params) :
    ∀ (ws : List Token) (pos neg : ℚ) (s : ℚ × ℚ),
      score_loop p ws pos neg = Except.ok s → s = accum_scores p ws (pos, neg) := by
  intro ws
  induction ws with
  | nil =>
    intro pos neg s h
    unfold score_loop at h
    cases h
    rfl
  | cons w ws ih =>
    intro pos neg s h
    simp only [score_loop] at h
    split at h
    · cases h
    · exact ih _ _ s h

lemma score_loop_st_eq (p : Params) :
    ∀ (ws : List Token) (pos neg : ℚ),
      score_loop_st (def_pos_ll p) (def_neg_ll p) ws pos neg
          p.pos_likelihood p.neg_likelihood
        = (score_loop p ws pos neg, p.pos_likelihood, p.neg_likelihood) := by
  intro ws
  induction ws with
  | nil => intro pos neg; rfl
  | cons w ws ih =>
    intro pos neg
    simp only [score_loop_st, score_loop, dict_get_st_eq]
    split
    · rfl
    · exact ih _ _

/-- C4: `train` fails with a `CorpusError` exactly when the positive or the
negative training sample set is empty; the division-by-zero / log-of-zero in
the prior computation is a hard precondition failure that aborts training and
is never silently produced. -/
theorem train_corpus_error_iff (posDocs negDocs : List Doc) :
    train posDocs negDocs = Except.error TrainError.corpusError ↔
      posDocs = [] ∨ negDocs = [] := by
  by_cases h : posDocs.length = 0 ∨ negDocs.length = 0
  · simp only [train]
    rw [if_pos h]
    simp only [List.length_eq_zero] at h
    exact iff_of_true rfl h
  · simp only [train]
    rw [if_neg h]
    simp only [List.length_eq_zero] at h
    push_neg at h
    simp [h.1, h.2]

/-- C9: on an input whose normalisation yields no tokens, `classify` returns
`+1` when the positive prior exceeds the negative one and `-1` otherwise, and
never raises the zero/tie sanity error — for every model, including one with
equal or zero (log) priors — because the check only runs inside the
per-token loop. -/
theorem classify_empty_token_list (p : Params) :
    classify p [] = Except.ok (if p.pos_prior > p.neg_prior then 1 else -1) :=
  rfl

/-- C2: when `classify` returns, its result is the decision
`+1` if `scorePos > scoreNeg` else `-1` computed from the full accumulation
of priors plus per-token (stored-or-default) likelihoods, so it always lies
in `{+1, -1}`; the default likelihoods are `1/(nPosWords+nVocab)` and
`1/(nNegWords+nVocab)` (representing `ln` of those quantities). -/
theorem classify_decision_rule :
    (∀ (p : Params) (ws : List Token) (r : Int),
        classify p ws = Except.ok r →
          (r = 1 ∨ r = -1) ∧
          r = if (final_scores p ws).1 > (final_scores p ws).2 then 1 else -1) ∧
    ∀ p : Params,
      def_pos_ll p = 1 / ((p.n_pos_words : ℚ) + (p.n_vocab : ℚ)) ∧
      def_neg_ll p = 1 / ((p.n_neg_words : ℚ) + (p.n_vocab : ℚ)) := by
  constructor
  · intro p ws r h
    unfold classify at h
    cases hs : score_loop p ws p.pos_prior p.neg_prior with
    | error e => rw [hs] at h; cases h
    | ok s =>
      obtain ⟨pos, neg⟩ := s
      rw [hs] at h
      replace h : Except.ok (if neg < pos then (1 : Int) else -1) = Except.ok r := h
      injection h with h
      subst h
      have hacc := score_loop_ok_eq p ws _ _ _ hs
      have hf : final_scores p ws = (pos, neg) := hacc.symm
      rw [hf]
      constructor
      · split
        · exact Or.inl rfl
        · exact Or.inr rfl
      · rfl
  · intro p
    exact ⟨rfl, rfl⟩

/-- C2 witness: the concrete trained example model classifies
`"good movie"` as `+1`, a value inside `{+1, -1}`. -/
theorem classify_decision_rule_witness :
    classify example_model ["good", "movie"] = Except.ok 1 ∧
      ((1 : Int) = 1 ∨ (1 : Int) = -1) := by
  have h : classify example_model ["good", "movie"] = Except.ok 1 := by decide
  exact ⟨h, (classify_decision_rule.1 example_model ["good", "movie"] 1 h).1⟩

/-- C10: `classify` never modifies the trained model: threading the
dictionary state through every lookup (which uses get-with-default, not the
inserting `defaultdict` index access), the parameters after the call are
identical to the parameters before it, and the result agrees with the pure
`classify`. -/
theorem classify_preserves_model (p : Params) (ws : List Token) :
    (classify_st p ws).2 = p ∧ (classify_st p ws).1 = classify p ws := by
  unfold classify_st classify
  rw [score_loop_st_eq]
  constructor
  · rfl
  · cases score_loop p ws p.pos_prior p.neg_prior with
    | error e => rfl
    | ok s => obtain ⟨a, b⟩ := s; rfl

/-- C5: the metrics are computed from the confusion counts exactly by
`precision = tp/(tp+fp)`, `recall = tp/(tp+fn)`,
`fMeasure = 2*precision*recall/(precision+recall)`,
`accuracy = (tp+tn)/(tp+fp+tn+fn)`; with `tp=8, fp=2, tn=7, fn=3` this gives
`precision = 0.8`, `recall = 8/11` (within `1e-3` of `0.7273`) and
`accuracy = 0.75`. -/
theorem evaluate_metric_formulas :
    (∀ (tp fp tn fn : ℕ) (m : Metrics),
        compute_metrics tp fp tn fn = Except.ok m →
          m.precision = (tp : ℚ) / ((tp : ℚ) + (fp : ℚ)) ∧
          Metrics.«recall» m = (tp : ℚ) / ((tp : ℚ) + (fn : ℚ)) ∧
          m.f_measure
            = 2 * m.precision * Metrics.«recall» m / (m.precision + Metrics.«recall» m) ∧
          m.accuracy
            = ((tp : ℚ) + (tn : ℚ)) / ((tp : ℚ) + (fp : ℚ) + (tn : ℚ) + (fn : ℚ))) ∧
    compute_metrics 8 2 7 3 = Except.ok ⟨4/5, 8/11, 16/21, 3/4⟩ ∧
    (4 : ℚ) / 5 = 8 / 10 ∧
    |(8 : ℚ) / 11 - 7273 / 10000| < 1 / 1000 ∧
    (3 : ℚ) / 4 = 75 / 100 := by
  refine ⟨?_, by decide, by decide, by decide, by decide⟩
  intro tp fp tn fn m h
  simp only [compute_metrics] at h
  split at h
  · cases h
  split at h
  · cases h
  split at h
  · cases h
  split at h
  · cases h
  cases h
  exact ⟨rfl, rfl, rfl, rfl⟩

/-- C5 witness: the general formula instantiated at the concrete confusion
counts `tp=8, fp=2, tn=7, fn=3`. -/
theorem evaluate_metric_formulas_witness :
    compute_metrics 8 2 7 3 = Except.ok ⟨4/5, 8/11, 16/21, 3/4⟩ ∧
      (Metrics.mk (4/5) (8/11) (16/21) (3/4)).precision
        = ((8 : ℕ) : ℚ) / (((8 : ℕ) : ℚ) + ((2 : ℕ) : ℚ)) := by
  have h : compute_metrics 8 2 7 3 = Except.ok ⟨4/5, 8/11, 16/21, 3/4⟩ := by decide
  exact ⟨h, (evaluate_metric_formulas.1 8 2 7 3 _ h).1⟩

/-- C6: `evaluate`'s metric computation fails with the explicit
division-by-zero error exactly when one of the denominators is zero —
`tp+fp = 0`, `tp+fn = 0`, `precision+recall = 0`, or no samples at all —
and in those cases no metric value is silently produced. -/
theorem evaluate_zero_denominator_iff (tp fp tn fn : ℕ) :
    compute_metrics tp fp tn fn = Except.error MetricError.undefinedMetric ↔
      tp + fp = 0 ∨ tp + fn = 0 ∨
        (tp : ℚ) / ((tp : ℚ) + (fp : ℚ)) + (tp : ℚ) / ((tp : ℚ) + (fn : ℚ)) = 0 ∨
        tp + fp + tn + fn = 0 := by
  simp only [compute_metrics]
  split_ifs with h1 h2 h3 h4
  · exact iff_of_true rfl (Or.inl h1)
  · exact iff_of_true rfl (Or.inr (Or.inl h2))
  · exact iff_of_true rfl (Or.inr (Or.inr (Or.inl h3)))
  · exact iff_of_true rfl (Or.inr (Or.inr (Or.inr h4)))
  · constructor
    · intro h
      cases h
    · rintro (h | h | h | h)
      exacts [absurd h h1, absurd h h2, absurd h h3, absurd h h4]

/-- C1: training stores, for every word of the combined vocabulary (a word
missing from one class's bag counting as 0 there), the Laplace-smoothed
likelihood `(count(w)+1)/(nWords+nVocab)` for each class (the representative
of its `ln`), with `nPosWords`/`nNegWords` the per-class token totals and
`nVocab` the combined vocabulary size; on the worked example corpus this
yields `nVocab = 6`, `nPosWords = 5`, `nNegWords = 4`,
`posLikelihood["good"] = 3/11` and `negLikelihood["good"] = 1/10`
(representing `ln(3/11)` and `ln(1/10)`). -/
theorem train_laplace_smoothing :
    (∀ (posDocs negDocs : List Doc) (p : Params),
        train posDocs negDocs = Except.ok p →
          p.n_pos_words = posDocs.flatten.length ∧
          p.n_neg_words = negDocs.flatten.length ∧
          p.n_vocab = (posDocs.flatten ++ negDocs.flatten).dedup.length ∧
          ∀ w : Token, w ∈ posDocs.flatten ∨ w ∈ negDocs.flatten →
            p.pos_likelihood w
              = some (((posDocs.flatten.count w : ℚ) + 1)
                  / ((p.n_pos_words : ℚ) + (p.n_vocab : ℚ))) ∧
            p.neg_likelihood w
              = some (((negDocs.flatten.count w : ℚ) + 1)
                  / ((p.n_neg_words : ℚ) + (p.n_vocab : ℚ)))) ∧
    train example_pos_docs example_neg_docs = Except.ok example_model ∧
    example_model.n_vocab = 6 ∧
    example_model.n_pos_words = 5 ∧
    example_model.n_neg_words = 4 ∧
    example_model.pos_likelihood "good" = some (3 / 11) ∧
    example_model.neg_likelihood "good" = some (1 / 10) := by
  constructor
  · intro posDocs negDocs p h
    simp only [train] at h
    split at h
    · cases h
    · cases h
      refine ⟨rfl, rfl, rfl, ?_⟩
      intro w hw
      have hmem : w ∈ (posDocs.flatten ++ negDocs.flatten).dedup := by
        rw [List.mem_dedup, List.mem_append]
        exact hw
      exact ⟨by simp [hmem], by simp [hmem]⟩
  · exact ⟨train_example_ok, by decide, by decide, by decide, by decide, by decide⟩

/-- C1 witness: the general smoothing invariant instantiated at the worked
example corpus and the word `"good"`. -/
theorem train_laplace_smoothing_witness :
    example_model.pos_likelihood "good"
      = some (((example_pos_docs.flatten.count "good" : ℚ) + 1)
          / ((example_model.n_pos_words : ℚ) + (example_model.n_vocab : ℚ))) :=
  ((train_laplace_smoothing.1 example_pos_docs example_neg_docs example_model
      train_example_ok).2.2.2 "good" (by decide)).1

/-- C3 counterexample: on the tie-exhibiting trained model the fully
accumulated scores for the input tokens `["movie", "good"]` are nonzero
(representative `≠ 1`) and distinct, yet `classify` raises the
`InvariantViolation` error, because the sanity check runs after the first
token, where the partial scores tie. -/
theorem classify_midloop_check_cex :
    train tie_pos_docs tie_neg_docs = Except.ok tie_model ∧
    (final_scores tie_model ["movie", "good"]).1 ≠ 1 ∧
    (final_scores tie_model ["movie", "good"]).2 ≠ 1 ∧
    (final_scores tie_model ["movie", "good"]).1
      ≠ (final_scores tie_model ["movie", "good"]).2 ∧
    classify tie_model ["movie", "good"] = Except.error ClassifyError.invariantViolation :=
  ⟨train_tie_ok, by decide, by decide, by decide, by decide⟩

lemma score_loop_error_iff (p : Params) :
    ∀ (ws : List Token) (pos neg : ℚ),
      score_loop p ws pos neg = Except.error ClassifyError.invariantViolation ↔
        ∃ n, 0 < n ∧ n ≤ ws.length ∧
          ((accum_scores p (ws.take n) (pos, neg)).1 = 1 ∨
            (accum_scores p (ws.take n) (pos, neg)).2 = 1 ∨
            (accum_scores p (ws.take n) (pos, neg)).1
              = (accum_scores p (ws.take n) (pos, neg)).2) := by
  intro ws
  induction ws with
  | nil =>
    intro pos neg
    constructor
    · intro h
      cases h
    · rintro ⟨n, hn0, hnle, -⟩
      simp only [List.length_nil] at hnle
      omega
  | cons w ws ih =>
    intro pos neg
    simp only [score_loop]
    split
    · rename_i hb
      refine iff_of_true rfl ⟨1, Nat.one_pos, by simp, ?_⟩
      simpa [accum_scores] using hb
    · rename_i hb
      rw [ih]
      constructor
      · rintro ⟨n, hn0, hnle, hbad⟩
        exact ⟨n + 1, Nat.succ_pos _, by simpa using Nat.succ_le_succ hnle,
          by simpa [accum_scores] using hbad⟩
      · rintro ⟨n, hn0, hnle, hbad⟩
        match n, hn0, hnle, hbad with
        | 1, _, _, hbad =>
          exact absurd (by simpa [accum_scores] using hbad) hb
        | n + 2, _, hnle, hbad =>
          exact ⟨n + 1, Nat.succ_pos _, by simpa using hnle,
            by simpa [accum_scores] using hbad⟩

/-- C3 (amended): `classify` raises the `InvariantViolation` error iff some
nonempty prefix of the input's tokens accumulates scores that are zero
(representative `= 1`) or tied — the sanity check runs inside the per-token
loop, after every token, not only once at the end. -/
theorem classify_error_iff_bad_prefix (p : Params) (ws : List Token) :
    classify p ws = Except.error ClassifyError.invariantViolation ↔
      ∃ n, 0 < n ∧ n ≤ ws.length ∧
        ((final_scores p (ws.take n)).1 = 1 ∨
          (final_scores p (ws.take n)).2 = 1 ∨
          (final_scores p (ws.take n)).1 = (final_scores p (ws.take n)).2) := by
  have h := score_loop_error_iff p ws p.pos_prior p.neg_prior
  unfold classify
  cases hs : score_loop p ws p.pos_prior p.neg_prior with
  | error e =>
    cases e
    rw [hs] at h
    exact iff_of_true rfl (h.mp rfl)
  | ok s =>
    obtain ⟨a, b⟩ := s
    rw [hs] at h
    constructor
    · intro hcon
      cases hcon
    · intro hx
      cases h.mpr hx

lemma sum_map_indicator_zero (a : Token) :
    ∀ v : List Token, a ∉ v →
      (v.map (fun w => if a = w then (1 : ℕ) else 0)).sum = 0 := by
  intro v
  induction v with
  | nil => intro _; rfl
  | cons b v ih =>
    intro hnot
    have hab : a ≠ b := fun hab => hnot (hab ▸ List.mem_cons_self b v)
    have hav : a ∉ v := fun hav => hnot (List.mem_cons_of_mem b hav)
    simp only [List.map_cons, List.sum_cons, if_neg hab, ih hav]

lemma sum_map_indicator_one (a : Token) :
    ∀ v : List Token, v.Nodup → a ∈ v →
      (v.map (fun w => if a = w then (1 : ℕ) else 0)).sum = 1 := by
  intro v
  induction v with
  | nil => intro _ hmem; cases hmem
  | cons b v ih =>
    intro hnd hmem
    rw [List.nodup_cons] at hnd
    rcases List.mem_cons.mp hmem with hab | hav
    · have hav : a ∉ v := by rw [hab]; exact hnd.1
      simp only [List.map_cons, List.sum_cons, if_pos hab,
        sum_map_indicator_zero a v hav]
    · have hab : a ≠ b := fun hab => hnd.1 (hab ▸ hav)
      simp only [List.map_cons, List.sum_cons, if_neg hab, ih hnd.2 hav,
        Nat.zero_add]

lemma sum_count_eq_length (v : List Token) (hnd : v.Nodup) :
    ∀ l : List Token, (∀ w ∈ l, w ∈ v) →
      (v.map (fun w => l.count w)).sum = l.length := by
  intro l
  induction l with
  | nil => intro _; simp
  | cons a l ih =>
    intro hsub
    have ha : a ∈ v := hsub a (List.mem_cons_self a l)
    have hsub' : ∀ w ∈ l, w ∈ v := fun w hw => hsub w (List.mem_cons_of_mem a hw)
    have hcount : ∀ w : Token, (a :: l).count w = l.count w + if a = w then 1 else 0 := by
      intro w
      simp [List.count_cons]
    simp only [hcount, List.sum_map_add, ih hsub', sum_map_indicator_one a v hnd ha,
      List.length_cons]

lemma sum_smoothed_eq_one (l v : List Token) (hnd : v.Nodup)
    (hsub : ∀ w ∈ l, w ∈ v) (hD : ((l.length : ℚ) + (v.length : ℚ)) ≠ 0) :
    (v.map (fun w =>
        ((l.count w : ℚ) + 1) / ((l.length : ℚ) + (v.length : ℚ)))).sum = 1 := by
  have h1 : (v.map (fun w =>
      ((l.count w : ℚ) + 1) / ((l.length : ℚ) + (v.length : ℚ)))).sum
      = (v.map (fun w => ((l.count w : ℚ) + 1))).sum
          / ((l.length : ℚ) + (v.length : ℚ)) := by
    simp only [div_eq_mul_inv]
    exact List.sum_map_mul_right v _ _
  have h2 : (v.map (fun w => ((l.count w : ℚ) + 1))).sum
      = (l.length : ℚ) + (v.length : ℚ) := by
    rw [List.sum_map_add]
    congr 1
    · have hcast : (v.map (fun w => ((l.count w : ℚ)))).sum
          = ((v.map (fun w => l.count w)).sum : ℚ) := by
        rw [Nat.cast_list_sum, List.map_map]
        rfl
      rw [hcast, sum_count_eq_length v hnd l hsub]
    · simp [List.map_const', List.sum_replicate, nsmul_eq_mul]
  rw [h1, h2, div_self hD]

/-- C7 counterexample: on the worked example's positive class the smoothed
probabilities over the vocabulary already sum to exactly `1`, so adding the
extra unseen-word mass point `exp(defPosLL) = 1/(nPosWords+nVocab) = 1/11`
gives `12/11`, not `1` — the claimed sum including the extra point fails. -/
theorem smoothing_extra_mass_cex :
    train example_pos_docs example_neg_docs = Except.ok example_model ∧
    ((vocab_list example_pos_docs example_neg_docs).map
        (fun w => dict_get example_model.pos_likelihood w 0)).sum = 1 ∧
    ((vocab_list example_pos_docs example_neg_docs).map
        (fun w => dict_get example_model.pos_likelihood w 0)).sum
      + def_pos_ll example_model = 12 / 11 ∧
    (12 : ℚ) / 11 ≠ 1 :=
  ⟨train_example_ok, by decide, by decide, by decide⟩

/-- C7 (amended): for each class of a trained model with nonempty
vocabulary, the smoothed distribution over the vocabulary alone sums to
exactly `1` in exact rational arithmetic; including the extra unseen-word
mass point `1/(nWords+nVocab)` the total is `1 + 1/(nWords+nVocab)`. -/
theorem smoothing_mass_sums (posDocs negDocs : List Doc) (p : Params)
    (h : train posDocs negDocs = Except.ok p) (hv : p.n_vocab ≠ 0) :
    ((vocab_list posDocs negDocs).map (fun w => dict_get p.pos_likelihood w 0)).sum
      = 1 ∧
    ((vocab_list posDocs negDocs).map (fun w => dict_get p.pos_likelihood w 0)).sum
        + def_pos_ll p
      = 1 + 1 / ((p.n_pos_words : ℚ) + (p.n_vocab : ℚ)) ∧
    ((vocab_list posDocs negDocs).map (fun w => dict_get p.neg_likelihood w 0)).sum
      = 1 ∧
    ((vocab_list posDocs negDocs).map (fun w => dict_get p.neg_likelihood w 0)).sum
        + def_neg_ll p
      = 1 + 1 / ((p.n_neg_words : ℚ) + (p.n_vocab : ℚ)) := by
  simp only [train] at h
  split at h
  · cases h
  · cases h
    have hnd : (vocab_list posDocs negDocs).Nodup := List.nodup_dedup _
    have hvlen : (vocab_list posDocs negDocs).length ≠ 0 := hv
    have hvpos : (0 : ℚ) < ((vocab_list posDocs negDocs).length : ℚ) := by
      exact_mod_cast Nat.pos_of_ne_zero hvlen
    have hsubP : ∀ w ∈ posDocs.flatten, w ∈ vocab_list posDocs negDocs := by
      intro w hw
      rw [vocab_list, List.mem_dedup, List.mem_append]
      exact Or.inl hw
    have hsubN : ∀ w ∈ negDocs.flatten, w ∈ vocab_list posDocs negDocs := by
      intro w hw
      rw [vocab_list, List.mem_dedup, List.mem_append]
      exact Or.inr hw
    have hDP : ((posDocs.flatten.length : ℚ)
        + ((vocab_list posDocs negDocs).length : ℚ)) ≠ 0 := by
      have := Nat.cast_nonneg (α := ℚ) posDocs.flatten.length
      linarith
    have hDN : ((negDocs.flatten.length : ℚ)
        + ((vocab_list posDocs negDocs).length : ℚ)) ≠ 0 := by
      have := Nat.cast_nonneg (α := ℚ) negDocs.flatten.length
      linarith
    have hmapP : (vocab_list posDocs negDocs).map (fun w =>
        dict_get (fun w =>
          if w ∈ (posDocs.flatten ++ negDocs.flatten).dedup then
            some (((posDocs.flatten.count w : ℚ) + 1)
              / ((posDocs.flatten.length : ℚ)
                  + ((posDocs.flatten ++ negDocs.flatten).dedup.length : ℚ)))
          else none) w 0)
        = (vocab_list posDocs negDocs).map (fun w =>
            ((posDocs.flatten.count w : ℚ) + 1)
              / ((posDocs.flatten.length : ℚ)
                  + ((vocab_list posDocs negDocs).length : ℚ))) := by
      apply List.map_congr_left
      intro w hw
      have hw' : w ∈ (posDocs.flatten ++ negDocs.flatten).dedup := hw
      simp [dict_get, hw', vocab_list]
    have hmapN : (vocab_list posDocs negDocs).map (fun w =>
        dict_get (fun w =>
          if w ∈ (posDocs.flatten ++ negDocs.flatten).dedup then
            some (((negDocs.flatten.count w : ℚ) + 1)
              / ((negDocs.flatten.length : ℚ)
                  + ((posDocs.flatten ++ negDocs.flatten).dedup.length : ℚ)))
          else none) w 0)
        = (vocab_list posDocs negDocs).map (fun w =>
            ((negDocs.flatten.count w : ℚ) + 1)
              / ((negDocs.flatten.length : ℚ)
                  + ((vocab_list posDocs negDocs).length : ℚ))) := by
      apply List.map_congr_left
      intro w hw
      have hw' : w ∈ (posDocs.flatten ++ negDocs.flatten).dedup := hw
      simp [dict_get, hw', vocab_list]
    have hsumP := sum_smoothed_eq_one posDocs.flatten (vocab_list posDocs negDocs)
      hnd hsubP hDP
    have hsumN := sum_smoothed_eq_one negDocs.flatten (vocab_list posDocs negDocs)
      hnd hsubN hDN
    refine ⟨?_, ?_, ?_, ?_⟩
    · rw [show ((vocab_list posDocs negDocs).map (fun w =>
          dict_get (fun w =>
            if w ∈ (posDocs.flatten ++ negDocs.flatten).dedup then
              some (((posDocs.flatten.count w : ℚ) + 1)
                / ((posDocs.flatten.length : ℚ)
                    + ((posDocs.flatten ++ negDocs.flatten).dedup.length : ℚ)))
            else none) w 0)).sum
          = ((vocab_list posDocs negDocs).map (fun w =>
              ((posDocs.flatten.count w : ℚ) + 1)
                / ((posDocs.flatten.length : ℚ)
                    + ((vocab_list posDocs negDocs).length : ℚ)))).sum
        from congrArg List.sum hmapP]
      exact hsumP
    · rw [show ((vocab_list posDocs negDocs).map (fun w =>
          dict_get (fun w =>
            if w ∈ (posDocs.flatten ++ negDocs.flatten).dedup then
              some (((posDocs.flatten.count w : ℚ) + 1)
                / ((posDocs.flatten.length : ℚ)
                    + ((posDocs.flatten ++ negDocs.flatten).dedup.length : ℚ)))
            else none) w 0)).sum
          = ((vocab_list posDocs negDocs).map (fun w =>
              ((posDocs.flatten.count w : ℚ) + 1)
                / ((posDocs.flatten.length : ℚ)
                    + ((vocab_list posDocs negDocs).length : ℚ)))).sum
        from congrArg List.sum hmapP]
      rw [hsumP]
      rfl
    · rw [show ((vocab_list posDocs negDocs).map (fun w =>
          dict_get (fun w =>
            if w ∈ (posDocs.flatten ++ negDocs.flatten).dedup then
              some (((negDocs.flatten.count w : ℚ) + 1)
                / ((negDocs.flatten.length : ℚ)
                    + ((posDocs.flatten ++ negDocs.flatten).dedup.length : ℚ)))
            else none) w 0)).sum
          = ((vocab_list posDocs negDocs).map (fun w =>
              ((negDocs.flatten.count w : ℚ) + 1)
                / ((negDocs.flatten.length : ℚ)
                    + ((vocab_list posDocs negDocs).length : ℚ)))).sum
        from congrArg List.sum hmapN]
      exact hsumN
    · rw [show ((vocab_list posDocs negDocs).map (fun w =>
          dict_get (fun w =>
            if w ∈ (posDocs.flatten ++ negDocs.flatten).dedup then
              some (((negDocs.flatten.count w : ℚ) + 1)
                / ((negDocs.flatten.length : ℚ)
                    + ((posDocs.flatten ++ negDocs.flatten).dedup.length : ℚ)))
            else none) w 0)).sum
          = ((vocab_list posDocs negDocs).map (fun w =>
              ((negDocs.flatten.count w : ℚ) + 1)
                / ((negDocs.flatten.length : ℚ)
                    + ((vocab_list posDocs negDocs).length : ℚ)))).sum
        from congrArg List.sum hmapN]
      rw [hsumN]
      rfl

/-- C7 witness: the amended mass identity instantiated on the worked example
model. -/
theorem smoothing_mass_sums_witness :
    ((vocab_list example_pos_docs example_neg_docs).map
        (fun w => dict_get example_model.pos_likelihood w 0)).sum = 1 :=
  (smoothing_mass_sums example_pos_docs example_neg_docs example_model
    train_example_ok (by decide)).1

/-- C8: training is deterministic and order-independent — permuting the
documents within each class (the bag-of-words accumulation is a commutative
sum) yields identical model parameters: priors, word totals, vocabulary size
and both likelihood maps. -/
theorem train_order_independent (pd pd' nd nd' : List Doc)
    (hp : pd.Perm pd') (hn : nd.Perm nd') :
    train pd nd = train pd' nd' := by
  have hfp : pd.flatten.Perm pd'.flatten := hp.flatten
  have hfn : nd.flatten.Perm nd'.flatten := hn.flatten
  have hd : (pd.flatten ++ nd.flatten).dedup.Perm (pd'.flatten ++ nd'.flatten).dedup :=
    (hfp.append hfn).dedup
  have hlp : pd.length = pd'.length := hp.length_eq
  have hln : nd.length = nd'.length := hn.length_eq
  have hlfp : pd.flatten.length = pd'.flatten.length := hfp.length_eq
  have hlfn : nd.flatten.length = nd'.flatten.length := hfn.length_eq
  have hld : (pd.flatten ++ nd.flatten).dedup.length
      = (pd'.flatten ++ nd'.flatten).dedup.length := hd.length_eq
  have hcp : ∀ w : Token, pd.flatten.count w = pd'.flatten.count w :=
    fun w => hfp.count_eq w
  have hcn : ∀ w : Token, nd.flatten.count w = nd'.flatten.count w :=
    fun w => hfn.count_eq w
  have hm : ∀ w : Token,
      (w ∈ (pd.flatten ++ nd.flatten).dedup) = (w ∈ (pd'.flatten ++ nd'.flatten).dedup) :=
    fun w => propext hd.mem_iff
  simp only [train, hlp, hln, hlfp, hlfn, hld, hcp, hcn, hm]

/-- C8 witness: reversing the order of the documents inside each class of
the worked example corpus leaves the trained parameters identical. -/
theorem train_order_independent_witness :
    train example_pos_docs example_neg_docs
      = train example_pos_docs.reverse example_neg_docs.reverse :=
  train_order_independent _ _ _ _
    (example_pos_docs.reverse_perm).symm (example_neg_docs.reverse_perm).symm

end SentimentNB
